import Mathlib

/-!
Verification of `src/transcribe_streaming_infinite.py`.

The file shallowly embeds the core of the program: the constants, the
bridging computation of `ResumableMicrophoneStream.generator` (lines
109-161), the per-result reconciliation of `listen_print_loop` (lines
165-231) and the restart bookkeeping of `main` (lines 252-284).

Modelling conventions:
* Audio chunks are opaque values, represented by natural numbers; the byte
  content of a chunk never matters to the logic.
* The backend's timestamps (`result_end_time.seconds` / `.nanos`) are
  nonnegative integers; the in-session end time in milliseconds is
  `seconds * 1000 + nanos / 1000000` with truncating division, exactly the
  value of Python's `int(seconds * 1000 + nanos / 1000000)` here.
* The generator's replay-window arithmetic is done by Python in `float`
  with the built-in `round` (round-half-to-even).  Every quantity that the
  program rounds is a rational with denominator `len(last_audio_input)` or
  `STREAMING_LIMIT`, so we embed the computation exactly over the
  rationals, writing each rounded quantity as `roundHalfEven p q` (the
  round-half-to-even of the exact rational `p / q`).  At the magnitudes
  the program works with, the float computation and the exact rational
  computation round identically except on values astronomically close to
  a half-integer boundary.
* Wall-clock behaviour (the elapsed-time break at the top of the
  generator, the blocking queue) is abstracted: a sub-session is given the
  list of chunks the queue delivered and the list of responses the backend
  produced.
-/

/-- `STREAMING_LIMIT` from line 45 of the source: the per-session duration
limit in milliseconds. -/
def STREAMING_LIMIT : ℕ := 10000

/-- `WORKAROUND_WINDOW` from line 46 of the source: the trailing window in
milliseconds within which final results are distrusted. -/
def WORKAROUND_WINDOW : ℕ := 200

/-- `SAMPLE_RATE` from line 47 of the source. -/
def SAMPLE_RATE : ℕ := 16000

/-- `CHUNK_SIZE` from line 48 of the source: frames per 100 ms buffer. -/
def CHUNK_SIZE : ℕ := SAMPLE_RATE / 10

/-- Round-half-to-even (the semantics of Python's built-in `round`) of the
exact rational `p / q`, for `q > 0`.  `d` is the floor of `p / q` and `r`
the remainder, so the fractional part is `r / q`; it is compared with
`1/2` by comparing `2 * r` with `q`. -/
def roundHalfEven (p q : ℤ) : ℤ :=
  if 2 * Int.emod p q < q then Int.ediv p q
  else if q < 2 * Int.emod p q then Int.ediv p q + 1
  else if Int.ediv p q % 2 = 0 then Int.ediv p q else Int.ediv p q + 1

/-- Word characters as matched by `\w` in the source's pattern
`\b(exit|quit)\b` (restricted to ASCII, which covers the keyword
vocabulary). -/
def isWordChar (c : Char) : Bool := c.isAlphanum || c == '_'

/-- Whether the character list starts with `exit` or `quit`
case-insensitively, followed by a word boundary (`\b`). -/
def keywordAt : List Char → Bool
  | a :: b :: c :: d :: rest =>
      (((a.toLower == 'e') && (b.toLower == 'x') && (c.toLower == 'i') && (d.toLower == 't')) ||
       ((a.toLower == 'q') && (b.toLower == 'u') && (c.toLower == 'i') && (d.toLower == 't'))) &&
      (match rest with | [] => true | e :: _ => !isWordChar e)
  | _ => false

/-- Scan of the character list for a keyword occurrence; `prev` is the
character immediately before the current position (`none` at the start of
the string), used for the left word boundary. -/
def stopSearchAux : Option Char → List Char → Bool
  | _, [] => false
  | prev, c :: rest =>
      ((match prev with | none => true | some p => !isWordChar p) && keywordAt (c :: rest)) ||
      stopSearchAux (some c) rest

/-- Model of `re.search(r'\b(exit|quit)\b', transcript, re.I)` from line
220 of the source: the transcript contains `exit` or `quit` as a
case-insensitive whole word. -/
def containsStopKeyword (t : String) : Bool := stopSearchAux none t.data

/-- One recognition result as delivered by the backend (the fields of
`response.results[0]` that the source reads): finality flag, the reported
end time split into seconds and nanoseconds, and the alternatives'
transcripts. -/
structure SpeechResult where
  isFinal : Bool
  endSeconds : ℕ
  endNanos : ℕ
  alternatives : List String
deriving DecidableEq

/-- One streaming response: a (possibly empty) list of results; the source
only ever reads `results[0]`. -/
structure StreamingResponse where
  results : List SpeechResult
deriving DecidableEq

/-- One line written to the display: the corrected global end time, the
transcript, and whether it was printed as final (green, newline) or
interim (red, carriage return). -/
structure Emission where
  time : ℤ
  transcript : String
  isFinal : Bool
deriving DecidableEq

/-- The mutable fields of `ResumableMicrophoneStream` that the restart and
reconciliation logic reads and writes (lines 65-75 of the source), with
the source's `_`-prefixed names camel-cased. -/
structure StreamState where
  closed : Bool
  restartCounter : ℕ
  audioInput : List ℕ
  lastAudioInput : List ℕ
  resultEndTime : ℕ
  isFinalEndTime : ℕ
  finalRequestEndTime : ℕ
  bridgingOffset : ℤ
  lastTranscriptWasFinal : Bool
  newStream : Bool
deriving DecidableEq

/-- The state after `__init__` and `__enter__`: everything zero or empty,
`_new_stream = True`, `_closed = False`. -/
def initialState : StreamState :=
  { closed := false
    restartCounter := 0
    audioInput := []
    lastAudioInput := []
    resultEndTime := 0
    isFinalEndTime := 0
    finalRequestEndTime := 0
    bridgingOffset := 0
    lastTranscriptWasFinal := false
    newStream := true }

/-- The clamping of `_bridging_offset` from lines 124-128 of the source:
first raised to `0` if negative (giving `if b < 0 then 0 else b`), then
lowered to `_final_request_end_time` if larger. -/
def clampBridging (b : ℤ) (f : ℤ) : ℤ :=
  if (if b < 0 then 0 else b) > f then f
  else if b < 0 then 0 else b

/-- `chunksFromMS` from line 130 of the source:
`round((final_request_end_time - bridging_offset) / chunkTime)` where
`chunkTime = STREAMING_LIMIT / n`.  The rounded value is the exact
rational `(final - b) * n / STREAMING_LIMIT`. -/
def chunksFromMS (finalReq : ℕ) (b : ℤ) (n : ℕ) : ℤ :=
  roundHalfEven (((finalReq : ℤ) - b) * n) (STREAMING_LIMIT : ℤ)

/-- The recomputed `_bridging_offset` from line 132 of the source:
`round((n - chunksFromMS) * chunkTime)`, i.e. the round of the exact
rational `(n - cf) * STREAMING_LIMIT / n`. -/
def newBridgingOffset (cf : ℤ) (n : ℕ) : ℤ :=
  roundHalfEven (((n : ℤ) - cf) * (STREAMING_LIMIT : ℤ)) (n : ℤ)

/-- The replay block at the top of `generator` (lines 118-137 of the
source).  Returns the chunks replayed from `_last_audio_input` and the
updated state.  The block runs only when `_new_stream` is set and the
previous history is non-empty; inside it, `chunkTime = STREAMING_LIMIT /
len(...)` is the exact rational with numerator `STREAMING_LIMIT`, so the
source's `chunkTime != 0` guard is the test `STREAMING_LIMIT ≠ 0`.  The
replayed chunks are `_last_audio_input[chunksFromMS:]`. -/
def bridgingStep (s : StreamState) : List ℕ × StreamState :=
  if s.newStream = true ∧ s.lastAudioInput ≠ [] then
    let n := s.lastAudioInput.length
    if STREAMING_LIMIT ≠ 0 then
      let b2 := clampBridging s.bridgingOffset (s.finalRequestEndTime : ℤ)
      let cf := chunksFromMS s.finalRequestEndTime b2 n
      (s.lastAudioInput.drop cf.toNat,
       { s with bridgingOffset := newBridgingOffset cf n, newStream := false })
    else
      ([], { s with newStream := false })
  else
    ([], s)

/-- The in-session end time in milliseconds computed on lines 193-202 of
the source: `int(seconds * 1000 + nanos / 1000000)`. -/
def inSessionEndMs (r : SpeechResult) : ℕ :=
  r.endSeconds * 1000 + r.endNanos / 1000000

/-- `corrected_time` from line 204 of the source:
`result_end_time - bridging_offset + STREAMING_LIMIT * restart_counter`. -/
def correctedTime (s : StreamState) (endMs : ℕ) : ℤ :=
  (endMs : ℤ) - s.bridgingOffset + (STREAMING_LIMIT : ℤ) * (s.restartCounter : ℤ)

/-- Processing of a single result inside `listen_print_loop` (lines
186-231 of the source).  Returns the updated state, the emitted display
line if any, and whether the loop breaks (the keyword path).  A result
with no alternatives is skipped.  Otherwise `_result_end_time` is set,
`corrected_time` computed; a final result below the workaround threshold
is printed green and records `_is_final_end_time` and
`_last_transcript_was_final`, then the stop-keyword test may close the
stream and break; a final result at or above the threshold does nothing
further; an interim result is printed red and clears
`_last_transcript_was_final`. -/
def processResult (s : StreamState) (res : SpeechResult) :
    StreamState × Option Emission × Bool :=
  match res.alternatives with
  | [] => (s, none, false)
  | transcript :: _ =>
    let endMs := inSessionEndMs res
    let s1 := { s with resultEndTime := endMs }
    let t := correctedTime s1 endMs
    if res.isFinal = true then
      if endMs < STREAMING_LIMIT - WORKAROUND_WINDOW then
        let s2 := { s1 with isFinalEndTime := endMs, lastTranscriptWasFinal := true }
        if containsStopKeyword transcript = true then
          ({ s2 with closed := true }, some ⟨t, transcript, true⟩, true)
        else
          (s2, some ⟨t, transcript, true⟩, false)
      else
        (s1, none, false)
    else
      ({ s1 with lastTranscriptWasFinal := false }, some ⟨t, transcript, false⟩, false)

/-- Processing of one response: a response with an empty `results` list is
skipped (line 183); otherwise only `results[0]` is read (line 186). -/
def processResponse (s : StreamState) (r : StreamingResponse) :
    StreamState × Option Emission × Bool :=
  match r.results with
  | [] => (s, none, false)
  | res :: _ => processResult s res

/-- `listen_print_loop` over the whole response sequence of one
sub-session, collecting the emitted display lines; a break stops the
iteration, leaving the remaining responses unconsumed. -/
def listen_print_loop (s : StreamState) :
    List StreamingResponse → StreamState × List Emission
  | [] => (s, [])
  | r :: rs =>
    let step := processResponse s r
    if step.2.2 = true then (step.1, step.2.1.toList)
    else
      let rest := listen_print_loop step.1 rs
      (rest.1, step.2.1.toList ++ rest.2)

/-- The restart bookkeeping after `listen_print_loop` returns, lines
274-284 of the source: if `_result_end_time > 0`, snapshot
`_is_final_end_time` into `_final_request_end_time`; reset
`_result_end_time`; move `_audio_input` into `_last_audio_input`;
increment `_restart_counter`; set `_new_stream`. -/
def restartUpdate (s : StreamState) : StreamState :=
  let s1 := if 0 < s.resultEndTime then
      { s with finalRequestEndTime := s.isFinalEndTime } else s
  { s1 with
    resultEndTime := 0
    lastAudioInput := s1.audioInput
    audioInput := []
    restartCounter := s1.restartCounter + 1
    newStream := true }

/-- One iteration of the `while not stream._closed` loop in `main` (lines
254-284): clear `_audio_input`, run the generator's replay block, capture
the chunks the queue delivers during the sub-session (each appended to
`_audio_input`), reconcile the responses, then do the restart
bookkeeping. -/
def subSession (s : StreamState) (captured : List ℕ)
    (resps : List StreamingResponse) : StreamState × List Emission :=
  let s0 := { s with audioInput := [] }
  let s1 := (bridgingStep s0).2
  let s2 := { s1 with audioInput := s1.audioInput ++ captured }
  let out := listen_print_loop s2 resps
  (restartUpdate out.1, out.2)

/-- The `main` loop: sub-sessions are driven while the stream is not
closed; each element of the input list is the pair of the chunks captured
and the responses received during one sub-session. -/
def mainLoop (s : StreamState) :
    List (List ℕ × List StreamingResponse) → StreamState × List Emission
  | [] => (s, [])
  | (cap, resps) :: rest =>
    if s.closed = true then (s, [])
    else
      let step := subSession s cap resps
      let more := mainLoop step.1 rest
      (more.1, step.2 ++ more.2)

/-- Modelled from the spec's wording of the replay computation (§4.2 step
2 and the C2 sources): `chunkDurationMs = durationLimit /
count(previousAudioHistory)`; `bridgingOffsetMs` clamped into `[0,
finalResultEndTimeMs]`; `chunksFromIndex = round((finalResultEndTimeMs -
bridgingOffsetMs) / chunkDurationMs)`; the next `bridgingOffsetMs =
round((count - chunksFromIndex) * chunkDurationMs)`; the replayed chunks
are those from `chunksFromIndex` to the end.  Rounds are written over the
exact rationals with denominators `durationLimit` and `count`. -/
def specReplay (prevHistory : List ℕ) (finalPrevMs : ℕ) (bridgingMs : ℤ) :
    List ℕ × ℤ :=
  let count := prevHistory.length
  let clamped := max 0 (min bridgingMs (finalPrevMs : ℤ))
  let chunksFromIndex :=
    roundHalfEven (((finalPrevMs : ℤ) - clamped) * count) (STREAMING_LIMIT : ℤ)
  let nextBridging :=
    roundHalfEven (((count : ℤ) - chunksFromIndex) * (STREAMING_LIMIT : ℤ)) (count : ℤ)
  (prevHistory.drop chunksFromIndex.toNat, nextBridging)

/-- Scenario state for the global-timeline formula (spec §8): restart
counter 1 and bridging offset 50 ms. -/
def c1State : StreamState := { initialState with restartCounter := 1, bridgingOffset := 50 }

/-- Scenario result for the global-timeline formula: a final result whose
reported end time is 3 s. -/
def c1Res : SpeechResult := ⟨true, 3, 0, ["hello"]⟩

/-- Scenario state for the replay computation (spec §8): 100 previous
chunks, previous final end time 8000 ms, bridging offset 0. -/
def c2State : StreamState :=
  { initialState with
    lastAudioInput := List.range 100
    finalRequestEndTime := 8000
    bridgingOffset := 0
    newStream := true
    restartCounter := 1 }

/-- Scenario result for keyword termination: a final result at 1 s whose
transcript contains the stop keyword `quit`. -/
def c4Res : SpeechResult := ⟨true, 1, 0, ["please quit now"]⟩

/-- Scenario state for the no-loss property: 100 previous chunks with
previous final end time 8000 ms. -/
def c5State : StreamState :=
  { initialState with
    lastAudioInput := List.range 100
    finalRequestEndTime := 8000
    newStream := true }

/-- Scenario state for the cross-restart bound on global end times: one
previous chunk, previous final end time 4000 ms, restart counter 1. -/
def c6WitnessState : StreamState :=
  { initialState with
    lastAudioInput := [5]
    finalRequestEndTime := 4000
    restartCounter := 1
    newStream := true }

/-! ### Arithmetic facts about `roundHalfEven` and `clampBridging` -/

lemma roundHalfEven_eq_cases (p q : ℤ) :
    roundHalfEven p q = Int.ediv p q ∨ roundHalfEven p q = Int.ediv p q + 1 := by
  unfold roundHalfEven
  split_ifs <;> simp

lemma roundHalfEven_key (p q : ℤ) (hq : 0 < q) :
    ((p : ℚ) / q = Int.ediv p q + Int.emod p q / q) ∧
    (0 : ℚ) ≤ Int.emod p q / q ∧ (Int.emod p q : ℚ) / q < 1 := by
  have hq0 : (q : ℚ) ≠ 0 := by exact_mod_cast hq.ne'
  have hqQ : (0 : ℚ) < q := by exact_mod_cast hq
  have hdr : q * Int.ediv p q + Int.emod p q = p := Int.ediv_add_emod p q
  have hdrQ : (q : ℚ) * (Int.ediv p q : ℚ) + (Int.emod p q : ℚ) = (p : ℚ) := by
    exact_mod_cast hdr
  have hr0 : (0 : ℤ) ≤ Int.emod p q := Int.emod_nonneg p hq.ne'
  have hrq : Int.emod p q < q := Int.emod_lt_of_pos p hq
  refine ⟨?_, ?_, ?_⟩
  · field_simp
    linarith
  · apply div_nonneg _ (le_of_lt hqQ)
    exact_mod_cast hr0
  · rw [div_lt_one hqQ]
    exact_mod_cast hrq

lemma roundHalfEven_frac_lt (p q : ℤ) (hq : 0 < q) (h : 2 * Int.emod p q < q) :
    (Int.emod p q : ℚ) / q < 1 / 2 := by
  have hqQ : (0 : ℚ) < q := by exact_mod_cast hq
  rw [div_lt_div_iff₀ hqQ (by norm_num : (0:ℚ) < 2)]
  have : (2 * Int.emod p q : ℚ) < q := by exact_mod_cast h
  linarith

lemma roundHalfEven_frac_gt (p q : ℤ) (hq : 0 < q) (h : q < 2 * Int.emod p q) :
    (1 : ℚ) / 2 < (Int.emod p q : ℚ) / q := by
  have hqQ : (0 : ℚ) < q := by exact_mod_cast hq
  rw [div_lt_div_iff₀ (by norm_num : (0:ℚ) < 2) hqQ]
  have : (q : ℚ) < 2 * Int.emod p q := by exact_mod_cast h
  linarith

lemma roundHalfEven_frac_eq (p q : ℤ) (hq : 0 < q)
    (h1 : ¬ 2 * Int.emod p q < q) (h2 : ¬ q < 2 * Int.emod p q) :
    (Int.emod p q : ℚ) / q = 1 / 2 := by
  have hqQ : (0 : ℚ) < q := by exact_mod_cast hq
  have h2r : (2 * Int.emod p q : ℤ) = q := le_antisymm (not_lt.mp h2) (not_lt.mp h1)
  have h2rQ : (2 * Int.emod p q : ℚ) = q := by exact_mod_cast h2r
  rw [div_eq_div_iff hqQ.ne' (by norm_num : (2:ℚ) ≠ 0)]
  linarith

lemma le_roundHalfEven (p q : ℤ) (hq : 0 < q) :
    (p : ℚ) / q - 1 / 2 ≤ (roundHalfEven p q : ℚ) := by
  obtain ⟨hkey, hr0, hr1⟩ := roundHalfEven_key p q hq
  unfold roundHalfEven
  split_ifs with h1 h2 h3
  · have := roundHalfEven_frac_lt p q hq h1
    linarith
  · push_cast
    linarith
  · have := roundHalfEven_frac_eq p q hq h1 h2
    linarith
  · have := roundHalfEven_frac_eq p q hq h1 h2
    push_cast
    linarith

lemma roundHalfEven_le (p q : ℤ) (hq : 0 < q) :
    (roundHalfEven p q : ℚ) ≤ (p : ℚ) / q + 1 / 2 := by
  obtain ⟨hkey, hr0, hr1⟩ := roundHalfEven_key p q hq
  unfold roundHalfEven
  split_ifs with h1 h2 h3
  · linarith
  · have := roundHalfEven_frac_gt p q hq h2
    push_cast
    linarith
  · have := roundHalfEven_frac_eq p q hq h1 h2
    linarith
  · have := roundHalfEven_frac_eq p q hq h1 h2
    push_cast
    linarith

lemma roundHalfEven_nonneg (p q : ℤ) (hq : 0 < q) (hp : 0 ≤ p) :
    0 ≤ roundHalfEven p q := by
  have hd : (0 : ℤ) ≤ Int.ediv p q := Int.ediv_nonneg hp (le_of_lt hq)
  rcases roundHalfEven_eq_cases p q with h | h <;> omega

lemma roundHalfEven_le_ceil (p q : ℤ) (hq : 0 < q) :
    roundHalfEven p q ≤ ⌈(p : ℚ) / q⌉ := by
  obtain ⟨hkey, hr0, hr1⟩ := roundHalfEven_key p q hq
  have hqQ : (0 : ℚ) < q := by exact_mod_cast hq
  have hdle : (Int.ediv p q : ℚ) ≤ (p : ℚ) / q := by linarith
  have hdceil : Int.ediv p q ≤ ⌈(p : ℚ) / q⌉ := by
    have := Int.le_ceil ((p : ℚ) / q)
    exact_mod_cast hdle.trans this
  have hstep : (1 : ℚ) / 2 ≤ (Int.emod p q : ℚ) / q → Int.ediv p q + 1 ≤ ⌈(p : ℚ) / q⌉ := by
    intro hfr
    have hlt : (Int.ediv p q : ℚ) < (p : ℚ) / q := by linarith
    have : Int.ediv p q < ⌈(p : ℚ) / q⌉ := by
      have hc := Int.le_ceil ((p : ℚ) / q)
      exact_mod_cast hlt.trans_le hc
    omega
  unfold roundHalfEven
  split_ifs with h1 h2 h3
  · exact hdceil
  · exact hstep (le_of_lt (roundHalfEven_frac_gt p q hq h2))
  · exact hdceil
  · exact hstep (le_of_eq (roundHalfEven_frac_eq p q hq h1 h2).symm)

lemma clampBridging_nonneg (b f : ℤ) (hf : 0 ≤ f) : 0 ≤ clampBridging b f := by
  unfold clampBridging
  split_ifs <;> omega

lemma clampBridging_le_right (b f : ℤ) (hf : 0 ≤ f) : clampBridging b f ≤ f := by
  unfold clampBridging
  split_ifs <;> omega

lemma clampBridging_le_left (b f : ℤ) (hb : 0 ≤ b) : clampBridging b f ≤ b := by
  unfold clampBridging
  split_ifs <;> omega

lemma clampBridging_eq_max_min (b f : ℤ) (hf : 0 ≤ f) :
    clampBridging b f = max 0 (min b f) := by
  unfold clampBridging
  split_ifs <;> omega

lemma bridgingStep_fst (s : StreamState) (hns : s.newStream = true)
    (hne : s.lastAudioInput ≠ []) :
    (bridgingStep s).1 = s.lastAudioInput.drop
      (chunksFromMS s.finalRequestEndTime
        (clampBridging s.bridgingOffset (s.finalRequestEndTime : ℤ))
        s.lastAudioInput.length).toNat := by
  unfold bridgingStep
  rw [if_pos ⟨hns, hne⟩, if_pos (by decide : STREAMING_LIMIT ≠ 0)]

lemma bridgingStep_snd (s : StreamState) (hns : s.newStream = true)
    (hne : s.lastAudioInput ≠ []) :
    (bridgingStep s).2 = { s with
      bridgingOffset := newBridgingOffset
        (chunksFromMS s.finalRequestEndTime
          (clampBridging s.bridgingOffset (s.finalRequestEndTime : ℤ))
          s.lastAudioInput.length)
        s.lastAudioInput.length
      newStream := false } := by
  unfold bridgingStep
  rw [if_pos ⟨hns, hne⟩, if_pos (by decide : STREAMING_LIMIT ≠ 0)]

lemma newBridging_upper_bound (F : ℕ) (b : ℤ) (n : ℕ) (hn : 0 < n) (hb : 0 ≤ b) :
    (newBridgingOffset (chunksFromMS F (clampBridging b (F : ℤ)) n) n : ℚ)
      ≤ (STREAMING_LIMIT : ℚ) - (F : ℚ) + (b : ℚ)
        + ((STREAMING_LIMIT : ℚ) / (n : ℚ)) / 2 + 1 / 2 := by
  have hnZ : (0 : ℤ) < (n : ℤ) := by exact_mod_cast hn
  have hnQ : (0 : ℚ) < (n : ℚ) := by exact_mod_cast hn
  have hL : (0 : ℤ) < (STREAMING_LIMIT : ℤ) := by decide
  have hLQ : (0 : ℚ) < (STREAMING_LIMIT : ℚ) := by exact_mod_cast hL
  have hb2b : clampBridging b (F : ℤ) ≤ b := clampBridging_le_left _ _ hb
  have hb2bQ : ((clampBridging b (F : ℤ) : ℤ) : ℚ) ≤ (b : ℚ) := by exact_mod_cast hb2b
  have h1 : (newBridgingOffset (chunksFromMS F (clampBridging b (F : ℤ)) n) n : ℚ)
      ≤ ((((n : ℤ) - chunksFromMS F (clampBridging b (F : ℤ)) n) * (STREAMING_LIMIT : ℤ) : ℤ) : ℚ)
          / ((n : ℤ) : ℚ) + 1 / 2 := by
    unfold newBridgingOffset
    exact roundHalfEven_le _ _ hnZ
  have h2 : ((((F : ℤ) - clampBridging b (F : ℤ)) * (n : ℤ) : ℤ) : ℚ)
        / (((STREAMING_LIMIT : ℕ) : ℤ) : ℚ) - 1 / 2
      ≤ (chunksFromMS F (clampBridging b (F : ℤ)) n : ℚ) := by
    unfold chunksFromMS
    exact le_roundHalfEven _ _ hL
  set cf : ℤ := chunksFromMS F (clampBridging b (F : ℤ)) n with hcf
  set b2 : ℤ := clampBridging b (F : ℤ) with hb2
  have h2' : ((n : ℚ) - (cf : ℚ))
      ≤ (n : ℚ) - (((F : ℚ) - (b2 : ℚ)) * (n : ℚ) / (STREAMING_LIMIT : ℚ)) + 1 / 2 := by
    push_cast at h2 ⊢
    linarith
  have hmul : ((n : ℚ) - (cf : ℚ)) * ((STREAMING_LIMIT : ℚ) / (n : ℚ))
      ≤ ((n : ℚ) - (((F : ℚ) - (b2 : ℚ)) * (n : ℚ) / (STREAMING_LIMIT : ℚ)) + 1 / 2)
          * ((STREAMING_LIMIT : ℚ) / (n : ℚ)) :=
    mul_le_mul_of_nonneg_right h2' (by positivity)
  have hid1 : ((((n : ℤ) - cf) * (STREAMING_LIMIT : ℤ) : ℤ) : ℚ) / ((n : ℤ) : ℚ)
      = ((n : ℚ) - (cf : ℚ)) * ((STREAMING_LIMIT : ℚ) / (n : ℚ)) := by
    push_cast
    ring
  have hid2 : ((n : ℚ) - (((F : ℚ) - (b2 : ℚ)) * (n : ℚ) / (STREAMING_LIMIT : ℚ)) + 1 / 2)
        * ((STREAMING_LIMIT : ℚ) / (n : ℚ))
      = (STREAMING_LIMIT : ℚ) - ((F : ℚ) - (b2 : ℚ)) + ((STREAMING_LIMIT : ℚ) / (n : ℚ)) / 2 := by
    field_simp
    ring
  rw [hid1] at h1
  rw [hid2] at hmul
  linarith

/-! ### The claims -/

/-- C1: for every recognition result carrying at least one alternative,
whenever `listen_print_loop` emits a display line for it (final or
interim), the global-timeline end time attached to the transcript equals
`inSessionEndMs - bridgingOffsetMs + STREAMING_LIMIT * restartCounter`. -/
theorem emission_time_is_global (s : StreamState) (res : SpeechResult)
    (s' : StreamState) (em : Emission) (brk : Bool)
    (h : processResult s res = (s', some em, brk)) :
    em.time = (inSessionEndMs res : ℤ) - s.bridgingOffset
      + (STREAMING_LIMIT : ℤ) * (s.restartCounter : ℤ) := by
  unfold processResult at h
  rcases hA : res.alternatives with _ | ⟨t, ts⟩
  · rw [hA] at h
    simp at h
  · rw [hA] at h
    dsimp only at h
    split_ifs at h with h1 h2 h3
    · simp only [Prod.mk.injEq] at h
      obtain ⟨-, hem, -⟩ := h
      injection hem with hx
      subst hx
      rfl
    · simp only [Prod.mk.injEq] at h
      obtain ⟨-, hem, -⟩ := h
      injection hem with hx
      subst hx
      rfl
    · simp at h
    · simp only [Prod.mk.injEq] at h
      obtain ⟨-, hem, -⟩ := h
      injection hem with hx
      subst hx
      rfl

/-- Witness for C1 at the spec scenario: restart counter 1, bridging
offset 50, final result at 3 s; the emitted global time is
`12950 = 3000 - 50 + 10000 * 1`. -/
theorem emission_time_is_global_witness :
    (⟨12950, "hello", true⟩ : Emission).time =
      (inSessionEndMs c1Res : ℤ) - c1State.bridgingOffset
        + (STREAMING_LIMIT : ℤ) * (c1State.restartCounter : ℤ) ∧
    (12950 : ℤ) = 3000 - 50 + 10000 * 1 :=
  ⟨emission_time_is_global c1State c1Res
      { c1State with resultEndTime := 3000, isFinalEndTime := 3000, lastTranscriptWasFinal := true }
      ⟨12950, "hello", true⟩ false (by decide),
   by decide⟩

/-- C2: on a restart with non-empty previous audio history, the replay
block of `generator` computes exactly what the spec prescribes: clamp the
bridging offset into `[0, finalResultEndTimeMs]`, take `chunksFromIndex =
round((finalResultEndTimeMs - bridgingOffsetMs) / chunkDurationMs)`,
recompute the bridging offset as `round((count - chunksFromIndex) *
chunkDurationMs)`, and replay the chunks from `chunksFromIndex` to the
end. -/
theorem bridging_replay_matches_spec (s : StreamState)
    (hns : s.newStream = true) (hne : s.lastAudioInput ≠ []) :
    bridgingStep s =
      ((specReplay s.lastAudioInput s.finalRequestEndTime s.bridgingOffset).1,
       { s with
         bridgingOffset :=
           (specReplay s.lastAudioInput s.finalRequestEndTime s.bridgingOffset).2
         newStream := false }) := by
  unfold bridgingStep specReplay
  rw [if_pos ⟨hns, hne⟩, if_pos (by decide : STREAMING_LIMIT ≠ 0),
    clampBridging_eq_max_min _ _ (Int.natCast_nonneg s.finalRequestEndTime)]
  rfl

/-- Witness for C2 at the spec scenario: 100 previous chunks, previous
final end time 8000 ms, bridging offset 0; chunks 80..99 are replayed and
the new bridging offset is 2000 ms. -/
theorem bridging_replay_matches_spec_witness :
    bridgingStep c2State =
      ((List.range 100).drop 80, { c2State with bridgingOffset := 2000, newStream := false }) ∧
    specReplay (List.range 100) 8000 0 = ((List.range 100).drop 80, 2000) :=
  ⟨(bridging_replay_matches_spec c2State rfl (by decide)).trans (by decide), by decide⟩

/-- C3: a final result whose in-session end time is at or beyond
`STREAMING_LIMIT - WORKAROUND_WINDOW` is never emitted as a final
transcript, and neither `_is_final_end_time` nor
`_last_transcript_was_final` is updated for it; a final transcript is
emitted only when the end time is below the threshold. -/
theorem boundary_final_suppressed (s : StreamState) (res : SpeechResult)
    (hf : res.isFinal = true) (ha : res.alternatives ≠ [])
    (h : STREAMING_LIMIT - WORKAROUND_WINDOW ≤ inSessionEndMs res) :
    (processResult s res).2.1 = none ∧
    (processResult s res).1.isFinalEndTime = s.isFinalEndTime ∧
    (processResult s res).1.lastTranscriptWasFinal = s.lastTranscriptWasFinal := by
  rcases hA : res.alternatives with _ | ⟨t, ts⟩
  · exact absurd hA ha
  · unfold processResult
    rw [hA, hf]
    dsimp only
    rw [if_pos rfl, if_neg (by omega : ¬ inSessionEndMs res < STREAMING_LIMIT - WORKAROUND_WINDOW)]
    exact ⟨rfl, rfl, rfl⟩

/-- Witness for C3 at the spec scenario: a final result at 9850 ms
(inside the 200 ms workaround window of the 10000 ms limit) produces no
emission. -/
theorem boundary_final_suppressed_witness :
    STREAMING_LIMIT - WORKAROUND_WINDOW ≤ inSessionEndMs ⟨true, 9, 850000000, ["nine"]⟩ ∧
    (processResult initialState ⟨true, 9, 850000000, ["nine"]⟩).2.1 = none :=
  ⟨by decide,
   (boundary_final_suppressed initialState ⟨true, 9, 850000000, ["nine"]⟩ rfl (by decide)
      (by decide)).1⟩

/-- C4: when a final transcript below the workaround threshold contains
`exit` or `quit` as a case-insensitive whole word, `listen_print_loop`
emits that transcript as final, closes the stream, consumes no further
responses of the current sequence, and the main loop starts no further
sub-session. -/
theorem stop_keyword_terminates (s : StreamState) (res : SpeechResult)
    (t : String) (ts : List String) (rs : List StreamingResponse)
    (hf : res.isFinal = true) (ha : res.alternatives = t :: ts)
    (hlt : inSessionEndMs res < STREAMING_LIMIT - WORKAROUND_WINDOW)
    (hk : containsStopKeyword t = true) :
    ∃ s' : StreamState,
      listen_print_loop s (⟨[res]⟩ :: rs) =
        (s', [⟨correctedTime s (inSessionEndMs res), t, true⟩]) ∧
      s'.closed = true ∧
      ∀ sessions, mainLoop s' sessions = (s', []) := by
  refine ⟨{ s with resultEndTime := inSessionEndMs res, isFinalEndTime := inSessionEndMs res, lastTranscriptWasFinal := true, closed := true }, ?_, rfl, ?_⟩
  · have hstep : processResult s res =
        ({ s with resultEndTime := inSessionEndMs res, isFinalEndTime := inSessionEndMs res, lastTranscriptWasFinal := true, closed := true },
         some ⟨correctedTime s (inSessionEndMs res), t, true⟩, true) := by
      unfold processResult
      rw [ha, hf]
      dsimp only
      rw [if_pos rfl, if_pos hlt, if_pos hk]
      rfl
    unfold listen_print_loop processResponse
    dsimp only
    rw [hstep]
    rfl
  · intro sessions
    rcases sessions with _ | ⟨⟨cap, resps⟩, rest⟩
    · rfl
    · unfold mainLoop
      rw [if_pos rfl]

/-- Witness for C4: the final transcript "please quit now" at 1 s closes
the run; a pending second response is never consumed and the main loop
does nothing afterwards. -/
theorem stop_keyword_terminates_witness :
    containsStopKeyword "please quit now" = true ∧
    ∃ s' : StreamState,
      listen_print_loop initialState [⟨[c4Res]⟩, ⟨[⟨true, 2, 0, ["more words"]⟩]⟩] =
        (s', [⟨correctedTime initialState (inSessionEndMs c4Res), "please quit now", true⟩]) ∧
      s'.closed = true ∧
      ∀ sessions, mainLoop s' sessions = (s', []) :=
  ⟨by decide,
   stop_keyword_terminates initialState c4Res "please quit now" []
     [⟨[⟨true, 2, 0, ["more words"]⟩]⟩] rfl rfl (by decide) (by decide)⟩

/-- C5: every chunk of the previous audio history that lies entirely
after the previous sub-session finalResultEndTimeMs (its start time
`i * chunkDurationMs` is at or after that time, stated as
`finalRequestEndTime * n ≤ i * STREAMING_LIMIT`) appears in the replayed
window, so it is not dropped at the restart cut. -/
theorem replay_no_loss (s : StreamState) (i : ℕ)
    (hns : s.newStream = true) (hne : s.lastAudioInput ≠ [])
    (hi : i < s.lastAudioInput.length)
    (hafter : (s.finalRequestEndTime : ℤ) * (s.lastAudioInput.length : ℤ)
        ≤ (i : ℤ) * (STREAMING_LIMIT : ℤ)) :
    ∃ j : ℕ, ((bridgingStep s).1)[j]? = s.lastAudioInput[i]? := by
  have hL : (0 : ℤ) < (STREAMING_LIMIT : ℤ) := by decide
  have hLQ : (0 : ℚ) < ((STREAMING_LIMIT : ℤ) : ℚ) := by exact_mod_cast hL
  have hb2nn : 0 ≤ clampBridging s.bridgingOffset (s.finalRequestEndTime : ℤ) :=
    clampBridging_nonneg _ _ (Int.natCast_nonneg s.finalRequestEndTime)
  have hZ : ((s.finalRequestEndTime : ℤ) - clampBridging s.bridgingOffset (s.finalRequestEndTime : ℤ))
      * (s.lastAudioInput.length : ℤ) ≤ (i : ℤ) * (STREAMING_LIMIT : ℤ) := by
    have h1 : ((s.finalRequestEndTime : ℤ) - clampBridging s.bridgingOffset (s.finalRequestEndTime : ℤ))
        * (s.lastAudioInput.length : ℤ) ≤ (s.finalRequestEndTime : ℤ) * (s.lastAudioInput.length : ℤ) := by
      apply mul_le_mul_of_nonneg_right _ (Int.natCast_nonneg s.lastAudioInput.length)
      omega
    exact h1.trans hafter
  have hcfle : chunksFromMS s.finalRequestEndTime
      (clampBridging s.bridgingOffset (s.finalRequestEndTime : ℤ)) s.lastAudioInput.length ≤ (i : ℤ) := by
    refine (roundHalfEven_le_ceil _ _ hL).trans ?_
    rw [Int.ceil_le, div_le_iff₀ hLQ]
    exact_mod_cast hZ
  have hcfnat : (chunksFromMS s.finalRequestEndTime
      (clampBridging s.bridgingOffset (s.finalRequestEndTime : ℤ)) s.lastAudioInput.length).toNat ≤ i :=
    Int.toNat_le.mpr hcfle
  refine ⟨i - (chunksFromMS s.finalRequestEndTime
      (clampBridging s.bridgingOffset (s.finalRequestEndTime : ℤ)) s.lastAudioInput.length).toNat, ?_⟩
  rw [bridgingStep_fst s hns hne, List.getElem?_drop]
  congr 1
  omega

/-- Witness for C5: with 100 previous chunks and previous final end time
8000 ms, chunk 85 (starting at 8500 ms) appears in the replay window. -/
theorem replay_no_loss_witness :
    85 < c5State.lastAudioInput.length ∧
    (c5State.finalRequestEndTime : ℤ) * (c5State.lastAudioInput.length : ℤ)
      ≤ ((85 : ℕ) : ℤ) * (STREAMING_LIMIT : ℤ) ∧
    ∃ j : ℕ, ((bridgingStep c5State).1)[j]? = c5State.lastAudioInput[85]? :=
  ⟨by decide, by decide,
   replay_no_loss c5State 85 rfl (by decide) (by decide) (by decide)⟩

/-- C6 counterexample: global end times of consecutive final results are
not monotone.  In a concrete two-sub-session run the first final result is
emitted with global time 4000 and the next final result, after the
restart, with global time 100. -/
theorem global_end_time_not_monotone :
    (mainLoop initialState
      [([0], [⟨[⟨true, 4, 0, ["alpha"]⟩]⟩]),
       ([1], [⟨[⟨true, 0, 100000000, ["beta"]⟩]⟩])]).2 =
      [⟨4000, "alpha", true⟩, ⟨100, "beta", true⟩] ∧ (100 : ℤ) < 4000 :=
  ⟨by decide, by decide⟩

/-- C6 amended: the global end time is non-decreasing between results
within one sub-session because result processing never changes the
bridging offset or the restart counter, and across a restart the global
time attached to a new result with in-session end `e2` is bounded below by
the previous sub-session last-final global time minus the rounding slack
`chunkDurationMs / 2 + 1/2` plus `e2`; monotonicity can fail, but only by
at most that slack. -/
theorem global_end_time_monotone_amended :
    (∀ (s : StreamState) (res : SpeechResult),
      (processResult s res).1.bridgingOffset = s.bridgingOffset ∧
      (processResult s res).1.restartCounter = s.restartCounter) ∧
    (∀ s : StreamState, 0 ≤ s.bridgingOffset → s.newStream = true →
      s.lastAudioInput ≠ [] → ∀ e2 : ℕ,
      ((s.finalRequestEndTime : ℚ) - (s.bridgingOffset : ℚ)
          + (STREAMING_LIMIT : ℚ) * ((s.restartCounter : ℚ) - 1))
        - ((STREAMING_LIMIT : ℚ) / (s.lastAudioInput.length : ℚ)) / 2 - 1 / 2
      ≤ (e2 : ℚ) - (((bridgingStep s).2.bridgingOffset : ℤ) : ℚ)
          + (STREAMING_LIMIT : ℚ) * (s.restartCounter : ℚ)) := by
  constructor
  · intro s res
    unfold processResult
    rcases hA : res.alternatives with _ | ⟨t, ts⟩
    · exact ⟨rfl, rfl⟩
    · dsimp only
      split_ifs <;> exact ⟨rfl, rfl⟩
  · intro s hb hns hne e2
    have hn : 0 < s.lastAudioInput.length := List.length_pos.mpr hne
    have he2 : (0 : ℚ) ≤ (e2 : ℚ) := by positivity
    have hkey := newBridging_upper_bound s.finalRequestEndTime s.bridgingOffset
      s.lastAudioInput.length hn hb
    rw [bridgingStep_snd s hns hne]
    dsimp only
    linarith

/-- Witness for the amended C6 bound at a concrete post-restart state
with one previous chunk and previous final end time 4000 ms. -/
theorem global_end_time_monotone_amended_witness :
    ((c6WitnessState.finalRequestEndTime : ℚ) - (c6WitnessState.bridgingOffset : ℚ)
        + (STREAMING_LIMIT : ℚ) * ((c6WitnessState.restartCounter : ℚ) - 1))
      - ((STREAMING_LIMIT : ℚ) / (c6WitnessState.lastAudioInput.length : ℚ)) / 2 - 1 / 2
    ≤ ((100 : ℕ) : ℚ) - (((bridgingStep c6WitnessState).2.bridgingOffset : ℤ) : ℚ)
        + (STREAMING_LIMIT : ℚ) * (c6WitnessState.restartCounter : ℚ) :=
  global_end_time_monotone_amended.2 c6WitnessState (by decide) rfl (by decide) 100

/-- C7 counterexample: the snapshot of `finalResultEndTimeMs` into
`cumulativeFinalEndTimeMs` is not performed iff a final result was
observed.  In a concrete run a final result at 5000 ms is observed and
emitted, but a trailing interim result with end time 0 makes
`_result_end_time` zero at the restart, so `_final_request_end_time`
stays 0 instead of advancing to 5000. -/
theorem cumulative_advance_not_iff_final :
    ((mainLoop initialState
      [([7], [⟨[⟨true, 5, 0, ["gamma"]⟩]⟩, ⟨[⟨false, 0, 0, ["g"]⟩]⟩])]).2.any
        (fun e => e.isFinal)) = true ∧
    (mainLoop initialState
      [([7], [⟨[⟨true, 5, 0, ["gamma"]⟩]⟩, ⟨[⟨false, 0, 0, ["g"]⟩]⟩])]).1.isFinalEndTime = 5000 ∧
    (mainLoop initialState
      [([7], [⟨[⟨true, 5, 0, ["gamma"]⟩]⟩, ⟨[⟨false, 0, 0, ["g"]⟩]⟩])]).1.finalRequestEndTime = 0 :=
  ⟨by decide, by decide, by decide⟩

/-- C7 amended: when a sub-session result sequence ends, the restart
bookkeeping snapshots `_is_final_end_time` into `_final_request_end_time`
iff the last reported `_result_end_time` is positive (not iff a final
result was observed), and in every case moves `_audio_input` into
`_last_audio_input`, resets `_audio_input`, increments
`_restart_counter`, and sets `_new_stream`. -/
theorem restart_update_behavior (s : StreamState) :
    (restartUpdate s).finalRequestEndTime =
      (if 0 < s.resultEndTime then s.isFinalEndTime else s.finalRequestEndTime) ∧
    (restartUpdate s).resultEndTime = 0 ∧
    (restartUpdate s).lastAudioInput = s.audioInput ∧
    (restartUpdate s).audioInput = [] ∧
    (restartUpdate s).restartCounter = s.restartCounter + 1 ∧
    (restartUpdate s).newStream = true := by
  unfold restartUpdate
  dsimp only
  split_ifs with h <;> exact ⟨rfl, rfl, rfl, rfl, rfl, rfl⟩

/-- C8: immediately after the clamping step, the bridging offset lies in
`[0, finalResultEndTimeMs]` for every offset and every (nonnegative)
final-request end time: never negative, never larger than the available
replay window. -/
theorem clamped_bridging_offset_in_range (b : ℤ) (f : ℕ) :
    0 ≤ clampBridging b (f : ℤ) ∧ clampBridging b (f : ℤ) ≤ (f : ℤ) :=
  ⟨clampBridging_nonneg b f (Int.natCast_nonneg f),
   clampBridging_le_right b f (Int.natCast_nonneg f)⟩

/-- C9: when the previous audio history is empty at the start of a new
sub-session, the replay block is skipped entirely: no chunk is replayed,
the state (including the bridging offset) is untouched, and the division
by `len(last_audio_input)` inside the block is never reached. -/
theorem empty_history_skips_replay (s : StreamState)
    (h : s.lastAudioInput = []) : bridgingStep s = ([], s) := by
  unfold bridgingStep
  rw [if_neg]
  intro hc
  exact hc.2 h

/-- Witness for C9 at the initial state: empty history, no replay. -/
theorem empty_history_skips_replay_witness :
    bridgingStep initialState = ([], initialState) :=
  empty_history_skips_replay initialState rfl

/-- C10: a final result falling in the workaround window mutates only
`_result_end_time`; the emission is `none`, the loop does not break, and
`closed`, `_is_final_end_time` and `_last_transcript_was_final` are
untouched, so the stop-keyword check never runs on such a result even if
its transcript contains `exit` or `quit`. -/
theorem window_final_frame_effect (s : StreamState) (res : SpeechResult)
    (t : String) (ts : List String)
    (hf : res.isFinal = true) (ha : res.alternatives = t :: ts)
    (h : STREAMING_LIMIT - WORKAROUND_WINDOW ≤ inSessionEndMs res) :
    processResult s res = ({ s with resultEndTime := inSessionEndMs res }, none, false) := by
  unfold processResult
  rw [ha, hf]
  dsimp only
  rw [if_pos rfl, if_neg (by omega : ¬ inSessionEndMs res < STREAMING_LIMIT - WORKAROUND_WINDOW)]

/-- Witness for C10: a final result at 9900 ms whose transcript contains
`exit` changes only `_result_end_time` and does not terminate. -/
theorem window_final_frame_effect_witness :
    processResult initialState ⟨true, 9, 900000000, ["please exit"]⟩ =
      ({ initialState with resultEndTime := 9900 }, none, false) ∧
    containsStopKeyword "please exit" = true :=
  ⟨window_final_frame_effect initialState ⟨true, 9, 900000000, ["please exit"]⟩
      "please exit" [] rfl rfl (by decide),
   by decide⟩
